import Mathlib

/-!
Verification of the health-check monitoring engine of the
IKEA-Health-Check-Monitor repository.

The per-URL state machine lives in `HealthCheckMonitor` in
`health_check_monitor.py` (mirrored in `run.py`):
  - `handle_failure` increments `consecutive_failures`, records
    `downtime_start` on the first failure of an incident, and sends a Down
    alert exactly when the counter equals the configured threshold;
  - `handle_success` sends a Recovered alert when the previous counter was
    at or above the threshold, then resets the counter and clears
    `downtime_start`;
  - `record_status` appends a status entry to the per-URL history and trims
    it to the last 1000 entries;
  - `check_url_health` maps every probe outcome (HTTP response, timeout,
    connection error, other errors) to a result tuple without raising;
  - `start_continuous_monitoring` picks the quick-check interval whenever
    some URL has a positive failure counter.

Timestamps are modelled as natural numbers; downtime durations as integers
(difference of two timestamps).
-/

namespace HealthCheck

/-- Timestamps (seconds since some epoch), modelled as naturals. -/
abbrev Timestamp := Nat

/-- Per-URL mutable state tracked by the monitor: the consecutive-failure
counter (`self.consecutive_failures[url]`, defaulting to 0) and the optional
downtime start (`self.downtime_start`, a dict with the URL possibly absent). -/
structure URLState where
  consecutiveFailures : Nat
  downtimeStart : Option Timestamp
deriving DecidableEq, Repr

/-- Initial state of a URL: `defaultdict(int)` gives counter 0, and the
`downtime_start` dict has no entry for the URL. -/
def initState : URLState := ⟨0, none⟩

/-- Alert events emitted by the state machine: a Down alert carrying the
consecutive-failure count at emission time (`_send_alert`), or a Recovered
alert carrying the computed downtime duration (`_send_recovery_alert`). -/
inductive AlertEvent where
  | down (consecutiveFailures : Nat)
  | recovered (downtimeDuration : Int)
deriving DecidableEq, Repr

/-- `HealthCheckMonitor.handle_failure`: increment the counter; if the new
counter is 1, set `downtime_start` to now; if the new counter equals the
threshold, emit a Down alert. -/
def handle_failure (threshold : Nat) (now : Timestamp) (s : URLState) :
    URLState × List AlertEvent :=
  let cf := s.consecutiveFailures + 1
  let ds := if cf = 1 then some now else s.downtimeStart
  let events := if cf = threshold then [AlertEvent.down cf] else []
  (⟨cf, ds⟩, events)

/-- `HealthCheckMonitor.handle_success`: if the previous counter was at or
above the threshold, emit a Recovered alert whose duration is now minus the
recorded downtime start (defaulting to now when absent, as in
`self.downtime_start.get(url, datetime.now())`); then reset the counter to 0
and remove the downtime start (`pop`). -/
def handle_success (threshold : Nat) (now : Timestamp) (s : URLState) :
    URLState × List AlertEvent :=
  let events :=
    if threshold ≤ s.consecutiveFailures then
      [AlertEvent.recovered ((now : Int) - ((s.downtimeStart.getD now : Nat) : Int))]
    else []
  (⟨0, none⟩, events)

/-- One state-machine step, as dispatched by `run_single_check_cycle`:
a healthy result goes to `handle_success`, otherwise to `handle_failure`. -/
def update (threshold : Nat) (now : Timestamp) (healthy : Bool) (s : URLState) :
    URLState × List AlertEvent :=
  if healthy then handle_success threshold now s else handle_failure threshold now s

/-- Trace of a sequence of checks for one URL: for each check (its time and
whether it was healthy), the state after the update and the events emitted by
that update, in order. -/
def runTrace (threshold : Nat) (checks : List (Timestamp × Bool)) (s : URLState) :
    List (URLState × List AlertEvent) :=
  match checks with
  | [] => []
  | (now, healthy) :: rest =>
    let r := update threshold now healthy s
    r :: runTrace threshold rest r.1

/-- State reached after a sequence of checks (the events discarded). -/
def finalState (threshold : Nat) (checks : List (Timestamp × Bool)) (s : URLState) :
    URLState :=
  checks.foldl (fun st c => (update threshold c.1 c.2 st).1) s

/-- The state invariant of claim C3: the failure counter is zero exactly when
no downtime start is recorded. -/
def Inv (s : URLState) : Prop :=
  s.consecutiveFailures = 0 ↔ s.downtimeStart = none

/-- One entry of the per-URL status history, with the fields of the
`status_entry` dict built in `record_status` (the response time, a float
formatted into a string in the source, is modelled as a natural number). -/
structure StatusEntry where
  timestamp : Timestamp
  url : String
  status : String
  status_code : Nat
  response_time : Nat
  message : String
deriving DecidableEq, Repr

/-- The `status_entry` dict literal of `record_status`: status is the string
UP for a healthy check and DOWN otherwise. -/
def mkStatusEntry (now : Timestamp) (url : String) (is_healthy : Bool)
    (status_code : Nat) (response_time : Nat) (message : String) : StatusEntry :=
  ⟨now, url, if is_healthy then "UP" else "DOWN", status_code, response_time, message⟩

/-- `HealthCheckMonitor.record_status`, acting on one URL's history list:
append the new entry, then, if the length exceeds 1000, keep only the last
1000 entries (`self.status_history[url][-1000:]`). -/
def record_status (history : List StatusEntry) (e : StatusEntry) : List StatusEntry :=
  let h := history ++ [e]
  if 1000 < h.length then h.drop (h.length - 1000) else h

/-- Outcome of the HTTP GET performed by `check_url_health`: a response with
its status code and elapsed time, or one of the caught exception classes
(`requests.exceptions.Timeout`, `requests.exceptions.ConnectionError`,
`requests.exceptions.RequestException`, any other `Exception`). -/
inductive ProbeOutcome where
  | response (status_code : Nat) (elapsed : Nat)
  | timeout
  | connectionError
  | requestError (msg : String)
  | unexpectedError (msg : String)
deriving DecidableEq, Repr

/-- `HealthCheckMonitor.check_url_health`: maps every probe outcome to the
tuple (is_healthy, status_code, response_time, message); every exception is
caught and encoded, so the function is total. -/
def check_url_health (healthy_status_codes : List Nat) (request_timeout : Nat)
    (o : ProbeOutcome) : Bool × Nat × Nat × String :=
  match o with
  | .response code elapsed =>
      (healthy_status_codes.contains code, code, elapsed, "OK")
  | .timeout => (false, 0, request_timeout, "Request timeout")
  | .connectionError => (false, 0, 0, "Connection error")
  | .requestError msg => (false, 0, 0, "Request error: " ++ msg)
  | .unexpectedError msg => (false, 0, 0, "Unexpected error: " ++ msg)

/-- One check cycle over the monitored URLs
(`HealthCheckMonitor.run_single_check_cycle`): each URL's probe outcome is
classified by `check_url_health` and dispatched through the state machine;
the cycle returns, per URL, the new state and the emitted events. -/
def run_single_check_cycle (threshold : Nat) (now : Timestamp)
    (healthy_status_codes : List Nat) (request_timeout : Nat)
    (urls : List (String × URLState × ProbeOutcome)) :
    List (String × URLState × List AlertEvent) :=
  urls.map (fun u =>
    let r := check_url_health healthy_status_codes request_timeout u.2.2
    let s := update threshold now r.1 u.2.1
    (u.1, s.1, s.2))

/-- The wait-time decision of `start_continuous_monitoring`: start from the
normal check interval and switch to the quick-check interval if any URL has a
positive consecutive-failure counter. -/
def next_wait_time (check_interval quick_check_interval : Nat)
    (states : List URLState) : Nat :=
  if states.any (fun s => 0 < s.consecutiveFailures)
  then quick_check_interval else check_interval

/-- What `main` does after constructing the monitor: with no URLs it prints
the diagnostic and returns before any monitoring; otherwise it starts
continuous monitoring on the loaded URLs. -/
inductive MainAction where
  | haltEmptyUrls
  | monitor (urls : List String)
deriving DecidableEq, Repr

/-- The guard in `main`: `if not monitor.urls: print(error); return`. -/
def main_decision (urls : List String) : MainAction :=
  if urls.isEmpty then .haltEmptyUrls else .monitor urls

/-- Number of failed checks in one cycle's probe outcomes (the cycle adds one
to `total_failures` for each unhealthy result). -/
def cycle_failures (healthy_status_codes : List Nat) (request_timeout : Nat)
    (outcomes : List ProbeOutcome) : Nat :=
  (outcomes.filter
    (fun o => !(check_url_health healthy_status_codes request_timeout o).1)).length

/-- The statistics counters (`total_checks`, `total_failures`) after a list
of cycles, starting from 0 and 0: each cycle adds the number of URLs checked
to `total_checks` and the number of unhealthy results to `total_failures`. -/
def run_stats (healthy_status_codes : List Nat) (request_timeout : Nat)
    (cycles : List (List ProbeOutcome)) : Nat × Nat :=
  cycles.foldl
    (fun acc oc =>
      (acc.1 + oc.length,
       acc.2 + cycle_failures healthy_status_codes request_timeout oc))
    (0, 0)

/-- The failure rate computed in `_generate_report` and the final summary:
`total_failures / max(total_checks, 1) * 100`, as a rational. -/
def failure_rate (total_failures total_checks : Nat) : ℚ :=
  (total_failures : ℚ) / (max total_checks 1 : ℚ) * 100

theorem runTrace_length (th : Nat) (checks : List (Timestamp × Bool)) (s : URLState) :
    (runTrace th checks s).length = checks.length := by
  induction checks generalizing s with
  | nil => rfl
  | cons c rest ih =>
    cases c with
    | mk now healthy => simp [runTrace, ih]

theorem runTrace_fail_get (th : Nat) (times : List Timestamp) (s : URLState) :
    ∀ i (h : i < (runTrace th (times.map fun t => (t, false)) s).length),
      ((runTrace th (times.map fun t => (t, false)) s).get ⟨i, h⟩).1.consecutiveFailures
          = s.consecutiveFailures + i + 1 ∧
      ((runTrace th (times.map fun t => (t, false)) s).get ⟨i, h⟩).2
          = if s.consecutiveFailures + i + 1 = th
            then [AlertEvent.down (s.consecutiveFailures + i + 1)] else [] := by
  induction times generalizing s with
  | nil =>
    intro i h
    simp [runTrace] at h
  | cons t rest ih =>
    intro i h
    cases i with
    | zero =>
      simp [runTrace, update, handle_failure]
    | succ j =>
      have h' : j < (runTrace th (rest.map fun t => (t, false))
          (update th t false s).1).length := by
        have := h
        simp only [List.map_cons, runTrace, List.length_cons] at this
        omega
      have ihj := ih (update th t false s).1 j h'
      have hb : (update th t false s).1.consecutiveFailures
          = s.consecutiveFailures + 1 := rfl
      rw [hb] at ihj
      have e : s.consecutiveFailures + 1 + j + 1 = s.consecutiveFailures + (j + 1) + 1 := by
        omega
      rw [e] at ihj
      exact ihj

theorem runTrace_fail_joined (th : Nat) (times : List Timestamp) (s : URLState) :
    ((runTrace th (times.map fun t => (t, false)) s).map Prod.snd).flatten
      = if s.consecutiveFailures < th ∧ th ≤ s.consecutiveFailures + times.length
        then [AlertEvent.down th] else [] := by
  induction times generalizing s with
  | nil =>
    rw [if_neg (by simp only [List.length_nil]; omega)]
    rfl
  | cons t rest ih =>
    have ihs := ih (update th t false s).1
    have hb : (update th t false s).1.consecutiveFailures
        = s.consecutiveFailures + 1 := rfl
    have he : (update th t false s).2
        = if s.consecutiveFailures + 1 = th
          then [AlertEvent.down (s.consecutiveFailures + 1)] else [] := rfl
    rw [hb] at ihs
    simp only [List.map_cons, runTrace, List.flatten_cons, List.length_cons]
    rw [he, ihs]
    by_cases h1 : s.consecutiveFailures + 1 = th
    · rw [if_pos h1, if_neg (by omega), if_pos (by omega), h1]
      rfl
    · rw [if_neg h1, List.nil_append]
      by_cases h2 : s.consecutiveFailures + 1 < th
          ∧ th ≤ s.consecutiveFailures + 1 + rest.length
      · rw [if_pos h2, if_pos (by omega)]
      · rw [if_neg h2, if_neg (by omega)]

theorem finalState_fail_cf (th : Nat) (times : List Timestamp) (s : URLState) :
    (finalState th (times.map fun t => (t, false)) s).consecutiveFailures
      = s.consecutiveFailures + times.length := by
  induction times generalizing s with
  | nil => rfl
  | cons t rest ih =>
    have hb : (update th t false s).1.consecutiveFailures
        = s.consecutiveFailures + 1 := rfl
    have ihs := ih (update th t false s).1
    simp only [List.map_cons, finalState, List.foldl_cons, List.length_cons] at ihs ⊢
    omega

theorem runTrace_append (th : Nat) (a b : List (Timestamp × Bool)) (s : URLState) :
    runTrace th (a ++ b) s = runTrace th a s ++ runTrace th b (finalState th a s) := by
  induction a generalizing s with
  | nil => rfl
  | cons c rest ih =>
    cases c with
    | mk now healthy =>
      simp only [List.cons_append, runTrace, List.cons.injEq, true_and]
      rw [show rest.append b = rest ++ b from rfl, ih]
      rfl

/-- Claim C6 scenario: threshold 2, three failures (at times 0, 1, 2) then a
success (at time 3) starting from the initial state.  The counter sequence is
1, 2, 3, 0; the only events are a Down alert at the second failure and a
Recovered alert (duration 3) at the success. -/
theorem scenario_fff_s :
    runTrace 2 [(0, false), (1, false), (2, false), (3, true)] initState =
      [(⟨1, some 0⟩, []), (⟨2, some 0⟩, [AlertEvent.down 2]),
       (⟨3, some 0⟩, []), (⟨0, none⟩, [AlertEvent.recovered 3])] := by
  decide

/-- Claim C1: feeding threshold + k consecutive failures (k ≥ 0) through
`handle_failure` from the initial state emits exactly one Down alert — the
concatenated event list of the run is exactly one Down event — and it is
emitted at the call where the counter first equals the threshold: after the
call at 0-based position i the counter is i + 1, and that call emits an event
iff i + 1 equals the threshold. -/
theorem down_alert_once_per_incident (th k : Nat) (times : List Timestamp)
    (hth : 1 ≤ th) (hlen : times.length = th + k) :
    (((runTrace th (times.map fun t => (t, false)) initState).map Prod.snd).flatten
        = [AlertEvent.down th]) ∧
    (∀ i (h : i < (runTrace th (times.map fun t => (t, false)) initState).length),
      ((runTrace th (times.map fun t => (t, false)) initState).get
          ⟨i, h⟩).1.consecutiveFailures = i + 1 ∧
      (((runTrace th (times.map fun t => (t, false)) initState).get ⟨i, h⟩).2 ≠ []
          ↔ i + 1 = th)) := by
  have h0 : initState.consecutiveFailures = 0 := rfl
  constructor
  · rw [runTrace_fail_joined, if_pos (by rw [h0]; omega)]
  · intro i h
    have hg := runTrace_fail_get th times initState i h
    rw [h0] at hg
    simp only [Nat.zero_add] at hg
    refine ⟨hg.1, ?_⟩
    rw [hg.2]
    by_cases hi : i + 1 = th
    · rw [if_pos hi]
      simp [hi]
    · rw [if_neg hi]
      simp [hi]

theorem down_alert_once_per_incident_witness :
    ((runTrace 2 ([0, 1, 2].map fun t => (t, false)) initState).map
        Prod.snd).flatten = [AlertEvent.down 2] :=
  (down_alert_once_per_incident 2 1 [0, 1, 2] (by decide) (by decide)).1

/-- Claim C2: on a success following a Down state (counter at or above the
threshold, with a recorded downtime start no later than now), exactly one
Recovered alert is emitted, its duration is now minus the recorded downtime
start and is nonnegative; afterwards the counter is 0, the downtime start is
cleared, and a further success emits no event. -/
theorem recovered_alert_on_first_success (th now t0 : Nat) (s : URLState)
    (hth : 1 ≤ th) (hdown : th ≤ s.consecutiveFailures)
    (hds : s.downtimeStart = some t0) (hmono : t0 ≤ now) :
    (handle_success th now s).2 = [AlertEvent.recovered ((now : Int) - (t0 : Int))] ∧
    (0 : Int) ≤ (now : Int) - (t0 : Int) ∧
    (handle_success th now s).1.consecutiveFailures = 0 ∧
    (handle_success th now s).1.downtimeStart = none ∧
    (∀ now2 : Timestamp, (handle_success th now2 (handle_success th now s).1).2 = []) := by
  refine ⟨?_, by omega, rfl, rfl, ?_⟩
  · simp only [handle_success, if_pos hdown, hds, Option.getD_some]
  · intro now2
    simp only [handle_success]
    rw [if_neg (by omega)]

theorem recovered_alert_on_first_success_witness :
    (handle_success 2 5 ⟨2, some 3⟩).2 = [AlertEvent.recovered ((5 : Int) - (3 : Int))] :=
  (recovered_alert_on_first_success 2 5 3 ⟨2, some 3⟩ (by decide) (by decide) rfl
    (by decide)).1

theorem update_preserves_Inv (th : Nat) (now : Timestamp) (healthy : Bool)
    (s : URLState) (hs : Inv s) : Inv (update th now healthy s).1 := by
  cases healthy with
  | true =>
    simp [update, handle_success, Inv]
  | false =>
    have hu : (update th now false s).1
        = ⟨s.consecutiveFailures + 1,
           if s.consecutiveFailures + 1 = 1 then some now else s.downtimeStart⟩ := rfl
    rw [hu]
    unfold Inv at hs ⊢
    simp only
    constructor
    · intro h
      omega
    · intro h
      by_cases hc : s.consecutiveFailures + 1 = 1
      · rw [if_pos hc] at h
        exact absurd h (by simp)
      · rw [if_neg hc] at h
        have := hs.mpr h
        omega

theorem runTrace_Inv (th : Nat) (checks : List (Timestamp × Bool)) (s : URLState)
    (hs : Inv s) : ∀ p ∈ runTrace th checks s, Inv p.1 := by
  induction checks generalizing s with
  | nil =>
    intro p hp
    simp [runTrace] at hp
  | cons c rest ih =>
    cases c with
    | mk now healthy =>
      intro p hp
      simp only [runTrace, List.mem_cons] at hp
      rcases hp with hp | hp
      · rw [hp]
        exact update_preserves_Inv th now healthy s hs
      · exact ih (update th now healthy s).1
          (update_preserves_Inv th now healthy s hs) p hp

/-- Claim C3: after every update in any run from the initial state, the
counter is zero exactly when no downtime start is recorded; moreover the
first failure of an incident (counter 0 before the call) records the downtime
start, and a success resets the counter to 0 and clears the downtime start. -/
theorem state_invariant (th : Nat) (checks : List (Timestamp × Bool)) :
    (∀ p ∈ runTrace th checks initState, Inv p.1) ∧
    (∀ (now : Timestamp) (s : URLState), s.consecutiveFailures = 0 →
      (handle_failure th now s).1.downtimeStart = some now) ∧
    (∀ (now : Timestamp) (s : URLState),
      (handle_success th now s).1.consecutiveFailures = 0 ∧
      (handle_success th now s).1.downtimeStart = none) := by
  refine ⟨runTrace_Inv th checks initState (by simp [Inv, initState]), ?_, ?_⟩
  · intro now s h
    simp [handle_failure, h]
  · intro now s
    exact ⟨rfl, rfl⟩

theorem state_invariant_witness : Inv ⟨1, some 0⟩ :=
  (state_invariant 2 [(0, false)]).1 (⟨1, some 0⟩, []) (by decide)

/-- Claim C4: if the counter stays strictly below the threshold during a run
of failures and the next check succeeds, no event at all is emitted (neither
Down nor Recovered), and the final state is the initial one: counter 0 with
the downtime start cleared. -/
theorem below_threshold_recovery_silent (th n : Nat) (times : List Timestamp)
    (t : Timestamp) (hlen : times.length = n) (hlt : n < th) :
    (((runTrace th ((times.map fun x => (x, false)) ++ [(t, true)]) initState).map
        Prod.snd).flatten = []) ∧
    (runTrace th ((times.map fun x => (x, false)) ++ [(t, true)]) initState).getLast?
      = some (initState, []) := by
  have h0 : initState.consecutiveFailures = 0 := rfl
  have hcf : (finalState th (times.map fun x => (x, false))
      initState).consecutiveFailures = n := by
    rw [finalState_fail_cf, h0, hlen, Nat.zero_add]
  have hsucc : update th t true (finalState th (times.map fun x => (x, false)) initState)
      = (initState, []) := by
    simp only [update, if_true, handle_success]
    rw [if_neg (by omega)]
    rfl
  have hone : runTrace th [(t, true)]
        (finalState th (times.map fun x => (x, false)) initState)
      = [update th t true (finalState th (times.map fun x => (x, false)) initState)] :=
    rfl
  rw [runTrace_append, hone, hsucc]
  constructor
  · simp only [List.map_append, List.flatten_append]
    rw [runTrace_fail_joined, if_neg (by rw [h0]; omega)]
    rfl
  · simp

theorem below_threshold_recovery_silent_witness :
    ((runTrace 2 (([0].map fun x => (x, false)) ++ [(5, true)]) initState).map
        Prod.snd).flatten = [] :=
  (below_threshold_recovery_silent 2 1 [0] 5 (by decide) (by decide)).1

theorem record_status_eq_drop (history : List StatusEntry) (e : StatusEntry) :
    record_status history e = (history ++ [e]).drop ((history.length + 1) - 1000) := by
  have hlen : (history ++ [e]).length = history.length + 1 := by
    simp
  simp only [record_status, hlen]
  by_cases hl : 1000 < history.length + 1
  · rw [if_pos hl]
  · rw [if_neg hl]
    rw [show (history.length + 1) - 1000 = 0 from by omega, List.drop_zero]

theorem drop_append_drop (l₁ l₂ : List StatusEntry) (d : Nat) (hd : d ≤ l₁.length)
    (k : Nat) : ((l₁.drop d) ++ l₂).drop k = (l₁ ++ l₂).drop (d + k) := by
  rw [← List.drop_append_of_le_length hd, List.drop_drop]

theorem foldl_record_status_drop (entries : List StatusEntry) :
    ∀ acc : List StatusEntry, acc.length ≤ 1000 →
      entries.foldl record_status acc
        = (acc ++ entries).drop ((acc ++ entries).length - 1000) := by
  induction entries with
  | nil =>
    intro acc hacc
    simp only [List.foldl_nil, List.append_nil]
    rw [show acc.length - 1000 = 0 from by omega, List.drop_zero]
  | cons e rest ih =>
    intro acc hacc
    have hd : (acc.length + 1) - 1000 ≤ (acc ++ [e]).length := by
      simp only [List.length_append, List.length_cons, List.length_nil]
      omega
    simp only [List.foldl_cons]
    rw [record_status_eq_drop]
    have hlen : ((acc ++ [e]).drop ((acc.length + 1) - 1000)).length ≤ 1000 := by
      simp only [List.length_drop, List.length_append, List.length_cons,
        List.length_nil]
      omega
    rw [ih _ hlen]
    rw [drop_append_drop (acc ++ [e]) rest ((acc.length + 1) - 1000) hd]
    rw [show (acc ++ [e]) ++ rest = acc ++ e :: rest from by simp]
    exact congrArg (fun k => List.drop k (acc ++ e :: rest))
      (by simp only [List.length_append, List.length_drop, List.length_cons,
            List.length_nil]
          omega)

/-- Claim C5: after any sequence of `record_status` calls starting from the
empty history, the stored history has at most 1000 entries and consists of
exactly the most recent entries in insertion order (the full appended
sequence with its oldest surplus dropped). -/
theorem history_bounded (entries : List StatusEntry) :
    (entries.foldl record_status []).length ≤ 1000 ∧
    entries.foldl record_status [] = entries.drop (entries.length - 1000) := by
  have h := foldl_record_status_drop entries [] (by simp)
  simp only [List.nil_append] at h
  refine ⟨?_, h⟩
  rw [h]
  simp only [List.length_drop]
  omega

/-- Claim C7: after a check cycle, the wait time before the next cycle is the
quick-check interval if some URL's post-cycle state has a positive failure
counter, and the normal check interval if all post-cycle counters are zero;
the decision is computed from the per-URL states produced by the cycle. -/
theorem interval_policy (th : Nat) (now : Timestamp) (codes : List Nat) (rt : Nat)
    (ci qi : Nat) (urls : List (String × URLState × ProbeOutcome)) :
    ((∃ p ∈ run_single_check_cycle th now codes rt urls,
        0 < p.2.1.consecutiveFailures) →
      next_wait_time ci qi ((run_single_check_cycle th now codes rt urls).map
        (fun p => p.2.1)) = qi) ∧
    ((∀ p ∈ run_single_check_cycle th now codes rt urls,
        p.2.1.consecutiveFailures = 0) →
      next_wait_time ci qi ((run_single_check_cycle th now codes rt urls).map
        (fun p => p.2.1)) = ci) := by
  constructor
  · rintro ⟨p, hp, hcf⟩
    simp only [next_wait_time]
    rw [if_pos]
    simp only [List.any_eq_true, List.mem_map]
    exact ⟨p.2.1, ⟨p, hp, rfl⟩, by simpa using hcf⟩
  · intro hall
    simp only [next_wait_time]
    rw [if_neg]
    simp only [List.any_eq_true, List.mem_map, not_exists, not_and]
    rintro x ⟨p, hp, hx⟩
    have := hall p hp
    simp [← hx, this]

theorem interval_policy_witness :
    next_wait_time 300 60
      ((run_single_check_cycle 2 0 [200] 10
        [("u", initState, ProbeOutcome.timeout)]).map (fun p => p.2.1)) = 60 :=
  (interval_policy 2 0 [200] 10 300 60
    [("u", initState, ProbeOutcome.timeout)]).1 (by decide)

/-- Claim C8: the probe classifier is a total function of the probe outcome
(no exception escapes): a received response is healthy exactly when its
status code is in the configured healthy set and carries that code and the
elapsed time; a timeout yields unhealthy, code 0 and response time equal to
the configured timeout; a connection error yields unhealthy, code 0, response
time 0; other request errors and unexpected errors yield unhealthy with code
0 and response time 0. -/
theorem probe_total_classification (codes : List Nat) (rt : Nat) (o : ProbeOutcome) :
    (∀ code elapsed, o = ProbeOutcome.response code elapsed →
      ((check_url_health codes rt o).1 = true ↔ code ∈ codes) ∧
      (check_url_health codes rt o).2.1 = code ∧
      (check_url_health codes rt o).2.2.1 = elapsed) ∧
    (o = ProbeOutcome.timeout →
      check_url_health codes rt o = (false, 0, rt, "Request timeout")) ∧
    (o = ProbeOutcome.connectionError →
      check_url_health codes rt o = (false, 0, 0, "Connection error")) ∧
    (∀ msg, o = ProbeOutcome.requestError msg →
      (check_url_health codes rt o).1 = false ∧
      (check_url_health codes rt o).2.1 = 0 ∧
      (check_url_health codes rt o).2.2.1 = 0) ∧
    (∀ msg, o = ProbeOutcome.unexpectedError msg →
      (check_url_health codes rt o).1 = false ∧
      (check_url_health codes rt o).2.1 = 0 ∧
      (check_url_health codes rt o).2.2.1 = 0) := by
  refine ⟨?_, ?_, ?_, ?_, ?_⟩
  · intro code elapsed ho
    subst ho
    refine ⟨?_, rfl, rfl⟩
    simp only [check_url_health]
    exact List.elem_iff
  · intro ho
    subst ho
    rfl
  · intro ho
    subst ho
    rfl
  · intro msg ho
    subst ho
    exact ⟨rfl, rfl, rfl⟩
  · intro msg ho
    subst ho
    exact ⟨rfl, rfl, rfl⟩

theorem probe_total_classification_witness :
    check_url_health [200] 10 ProbeOutcome.timeout = (false, 0, 10, "Request timeout") :=
  (probe_total_classification [200] 10 ProbeOutcome.timeout).2.1 rfl

/-- Claim C9: with an empty URL set, `main` halts with the diagnostic before
any monitoring; with a non-empty set it proceeds to monitoring, and the check
cycle is a total function of the probe outcomes — every URL yields a
processed result whatever its probe outcome, so no probe failure aborts the
cycle. -/
theorem empty_urls_halt (urls : List String) :
    (urls = [] → main_decision urls = MainAction.haltEmptyUrls) ∧
    (urls ≠ [] → main_decision urls = MainAction.monitor urls) ∧
    (∀ (th : Nat) (now : Timestamp) (codes : List Nat) (rt : Nat)
        (inputs : List (String × URLState × ProbeOutcome)),
      (run_single_check_cycle th now codes rt inputs).length = inputs.length) := by
  refine ⟨?_, ?_, ?_⟩
  · intro h
    subst h
    rfl
  · intro h
    simp [main_decision, h]
  · intro th now codes rt inputs
    simp [run_single_check_cycle]

theorem empty_urls_halt_witness : main_decision [] = MainAction.haltEmptyUrls :=
  (empty_urls_halt []).1 rfl

theorem run_stats_failures_le_aux (codes : List Nat) (rt : Nat)
    (cycles : List (List ProbeOutcome)) :
    ∀ a b : Nat, b ≤ a →
      (cycles.foldl (fun acc oc =>
          (acc.1 + oc.length, acc.2 + cycle_failures codes rt oc)) (a, b)).2
        ≤ (cycles.foldl (fun acc oc =>
          (acc.1 + oc.length, acc.2 + cycle_failures codes rt oc)) (a, b)).1 := by
  induction cycles with
  | nil =>
    intro a b h
    exact h
  | cons oc rest ih =>
    intro a b h
    simp only [List.foldl_cons]
    refine ih _ _ ?_
    have hf : cycle_failures codes rt oc ≤ oc.length :=
      List.length_filter_le _ oc
    omega

/-- Claim C10: the failure rate is total_failures / max(total_checks, 1) * 100,
so its denominator is positive for every state; along any run of check cycles
the failure count never exceeds the check count, and with zero checks
performed the reported failure rate is 0. -/
theorem failure_rate_safe (codes : List Nat) (rt : Nat)
    (cycles : List (List ProbeOutcome)) :
    (0 : ℚ) < ((max (run_stats codes rt cycles).1 1 : Nat) : ℚ) ∧
    (run_stats codes rt cycles).2 ≤ (run_stats codes rt cycles).1 ∧
    ((run_stats codes rt cycles).1 = 0 →
      failure_rate (run_stats codes rt cycles).2 (run_stats codes rt cycles).1 = 0) := by
  have hle : (run_stats codes rt cycles).2 ≤ (run_stats codes rt cycles).1 :=
    run_stats_failures_le_aux codes rt cycles 0 0 le_rfl
  refine ⟨?_, hle, ?_⟩
  · have : 0 < max (run_stats codes rt cycles).1 1 := by omega
    exact_mod_cast this
  · intro h0
    have hz : (run_stats codes rt cycles).2 = 0 := by omega
    rw [h0, hz]
    simp [failure_rate]

theorem failure_rate_safe_witness :
    failure_rate (run_stats [200] 10 []).2 (run_stats [200] 10 []).1 = 0 :=
  (failure_rate_safe [200] 10 []).2.2 rfl

end HealthCheck
